import Mathlib

/-!
Verification of the relative-time parser and fetch-command helpers of
telegram_manager/main.py.

The embedding mirrors the source:
- `parse_relative_time_string` scans its input (lower-cased) for the regular
  expression (\d+)\s*(mo|w|d|h|m) and, starting from the current UTC instant
  (taken here as an explicit parameter `now`), subtracts each matched token in
  order of appearance: `mo` via dateutil relativedelta (calendar-aware with
  end-of-month clamping), the other units via datetime.timedelta (fixed
  durations, expressed below in whole minutes).
- The fetch command tracks the minimum observed message id in a one-element
  list cell and prints a final summary line only when both the --since value
  and the --verbose flag are truthy.

The pure model uses unbounded integer years; the checked parser variant
additionally enforces datetime's supported year range (MINYEAR = 1 to
MAXYEAR = 9999) after each subtraction step, which is the reachable
overflow raise of the source (huge magnitudes push the result before year
1, and fetch's except-wrapper turns that into a CLI parameter error).
-/

inductive TimeUnit where
  | mo | w | d | h | m
  deriving DecidableEq

/-- One instant of an aware UTC datetime, field for field as in Python's
datetime (year, month, day, hour, minute, second, microsecond). -/
@[ext]
structure DateTime where
  year : Int
  month : Nat
  day : Nat
  hour : Nat
  minute : Nat
  second : Nat
  microsecond : Nat
  deriving DecidableEq

/-- calendar.isleap, as used by dateutil to size February. -/
def isLeap (y : Int) : Bool :=
  y % 4 == 0 && (y % 100 != 0 || y % 400 == 0)

/-- calendar.monthrange(y, m)[1]: number of days of month m of year y. -/
def daysInMonth (y : Int) (m : Nat) : Nat :=
  match m with
  | 1 => 31
  | 2 => if isLeap y then 29 else 28
  | 3 => 31
  | 4 => 30
  | 5 => 31
  | 6 => 30
  | 7 => 31
  | 8 => 31
  | 9 => 30
  | 10 => 31
  | 11 => 30
  | 12 => 31
  | _ => 0

/-- Step one calendar day into the past, rolling over month and year
boundaries (the day-level semantics of datetime - timedelta(days=1)). -/
def subDay1 (dt : DateTime) : DateTime :=
  if 1 < dt.day then
    { dt with day := dt.day - 1 }
  else if 1 < dt.month then
    { dt with month := dt.month - 1, day := daysInMonth dt.year (dt.month - 1) }
  else
    { dt with year := dt.year - 1, month := 12, day := 31 }

/-- Step n calendar days into the past. -/
def subDays (n : Nat) (dt : DateTime) : DateTime :=
  subDay1^[n] dt

/-- Minutes elapsed since midnight of the instant's day. -/
def timeOfDay (dt : DateTime) : Nat :=
  dt.hour * 60 + dt.minute

/-- Number of whole days borrowed when k minutes are subtracted from the
time-of-day (the day carry of datetime - timedelta(minutes=k)). -/
def borrowDays (k : Nat) (dt : DateTime) : Nat :=
  (-(((timeOfDay dt : Int) - (k : Int)) / 1440)).toNat

/-- Minutes since midnight after subtracting k minutes, normalized into
[0, 1440). -/
def newTimeOfDay (k : Nat) (dt : DateTime) : Nat :=
  ((((timeOfDay dt : Int) - (k : Int))) % 1440).toNat

/-- datetime - timedelta of k whole minutes (weeks/days/hours/minutes all
reduce to this; UTC-aware arithmetic is absolute-time arithmetic). Seconds
and microseconds pass through unchanged. -/
def subMinutes (k : Nat) (dt : DateTime) : DateTime :=
  { subDays (borrowDays k dt) dt with
    hour := newTimeOfDay k dt / 60
    minute := newTimeOfDay k dt % 60 }

/-- datetime - relativedelta(months=v): normalize year*12+month-1-v back into
year and month (floor division, as Python divmod), then clamp the day to the
length of the resulting month. Time fields are unchanged. -/
def subMonths (v : Nat) (dt : DateTime) : DateTime :=
  { dt with
    year := (dt.year * 12 + (dt.month : Int) - 1 - (v : Int)) / 12
    month := ((dt.year * 12 + (dt.month : Int) - 1 - (v : Int)) % 12).toNat + 1
    day := min dt.day (daysInMonth
      ((dt.year * 12 + (dt.month : Int) - 1 - (v : Int)) / 12)
      (((dt.year * 12 + (dt.month : Int) - 1 - (v : Int)) % 12).toNat + 1)) }

/-- The unit dispatch of the parser loop: mo months, w weeks (10080 minutes),
d days (1440 minutes), h hours (60 minutes), m minutes. -/
def applyUnit (value : Nat) (u : TimeUnit) (now : DateTime) : DateTime :=
  match u with
  | TimeUnit.mo => subMonths value now
  | TimeUnit.w => subMinutes (value * 10080) now
  | TimeUnit.d => subMinutes (value * 1440) now
  | TimeUnit.h => subMinutes (value * 60) now
  | TimeUnit.m => subMinutes value now

/-- Decimal digit value of a character. -/
def digitVal (c : Char) : Nat :=
  c.toNat - ( '0').toNat

/-- int(string-of-digits): base-10 accumulation. -/
def digitsToNat (ds : List Char) : Nat :=
  ds.foldl (fun a c => 10 * a + digitVal c) 0

/-- int(s) as a fallible operation: fails unless s is a nonempty run of
decimal digits (the ValueError mode the spec's error taxonomy mentions). -/
def parseIntOpt (ds : List Char) : Option Nat :=
  if ds = [] then none
  else if ds.all Char.isDigit then some (digitsToNat ds) else none

/-- Greedy \d+ at the head of the input: the maximal digit prefix and the
remaining characters. -/
def takeDigits : List Char → List Char × List Char
  | [] => ([], [])
  | c :: cs =>
    if c.isDigit then
      match takeDigits cs with
      | (ds, r) => (c :: ds, r)
    else ([], c :: cs)

/-- Python's \s character class (ASCII part). -/
def isPySpace (c : Char) : Bool :=
  c == ' ' || c == '\t' || c == '\n' || c == '\r' || c == '\x0b' || c == '\x0c'

/-- Greedy \s* at the head of the input. -/
def takeSpaces : List Char → List Char
  | [] => []
  | c :: cs => if isPySpace c then takeSpaces cs else c :: cs

/-- The alternation mo|w|d|h|m in its textual priority order: mo is tried
before a bare m, so an m followed by o is consumed as the month unit. -/
def matchUnit : List Char → Option (TimeUnit × List Char)
  | 'm' :: 'o' :: rest => some (TimeUnit.mo, rest)
  | 'w' :: rest => some (TimeUnit.w, rest)
  | 'd' :: rest => some (TimeUnit.d, rest)
  | 'h' :: rest => some (TimeUnit.h, rest)
  | 'm' :: rest => some (TimeUnit.m, rest)
  | _ => none

/-- One attempted match of (\d+)\s*(mo|w|d|h|m) anchored at the head of the
input; on success returns the digit group, the unit group, and the suffix
after the match. Digits and units are disjoint character classes, so the
regex engine's backtracking never produces a match this direct reading
misses. -/
def matchToken (cs : List Char) : Option (List Char × TimeUnit × List Char) :=
  match takeDigits cs with
  | ([], _) => none
  | (ds, rest) =>
    match matchUnit (takeSpaces rest) with
    | some (u, rest2) => some (ds, u, rest2)
    | none => none

/-- re.findall scan: try to match at the current position; on success resume
after the match, on failure advance one character. The fuel argument only
bounds the recursion; every step consumes at least one character, so fuel
equal to the input length (as used in findTokens) never runs out. -/
def findTokensAux : Nat → List Char → List (List Char × TimeUnit)
  | 0, _ => []
  | _, [] => []
  | fuel + 1, c :: rest =>
    match matchToken (c :: rest) with
    | some (ds, u, rest2) => (ds, u) :: findTokensAux fuel rest2
    | none => findTokensAux fuel rest

/-- re.findall(r'(\d+)\s*(mo|w|d|h|m)', cs): all non-overlapping matches in
textual order, as (digit-group, unit-group) pairs. -/
def findTokens (cs : List Char) : List (List Char × TimeUnit) :=
  findTokensAux cs.length cs

/-- time_str.lower() viewed as a character list. -/
def lowerData (s : String) : List Char :=
  s.data.map Char.toLower

/-- The token list the parser's loop iterates over. -/
def tokensOf (s : String) : List (List Char × TimeUnit) :=
  findTokens (lowerData s)

/-- One iteration of the parser loop: value = int(group); subtract the unit. -/
def applyToken (now : DateTime) (t : List Char × TimeUnit) : DateTime :=
  applyUnit (digitsToNat t.1) t.2 now

/-- parse_relative_time_string, with the ambient datetime.now(timezone.utc)
made an explicit parameter: fold the token subtractions over it, left to
right. -/
def parse_relative_time_string (s : String) (now : DateTime) : DateTime :=
  (tokensOf s).foldl applyToken now

/-- The parser loop's reachable exception kinds: a ValueError from int() on
a non-digit magnitude group, and the date arithmetic leaving datetime's
supported year range (OverflowError/ValueError from datetime or timedelta). -/
inductive ParseErr where
  | badInt
  | outOfRange
  deriving DecidableEq

/-- Python datetime's supported year range (MINYEAR = 1, MAXYEAR = 9999).
A subtraction step whose result lies outside this range raises. -/
def inPyYearRange (dt : DateTime) : Prop :=
  1 ≤ dt.year ∧ dt.year ≤ 9999

instance instDecidableYearRange (dt : DateTime) : Decidable (inPyYearRange dt) := by
  unfold inPyYearRange
  infer_instance

/-- One iteration of the parser loop with both of its raise sites kept
observable: value = int(group) may fail on a non-digit group, and the
subtraction may leave datetime's year range. -/
def applyTokenCheckedE (now : DateTime) (t : List Char × TimeUnit) :
    Except ParseErr DateTime :=
  match parseIntOpt t.1 with
  | none => Except.error ParseErr.badInt
  | some v =>
    if inPyYearRange (applyUnit v t.2 now) then Except.ok (applyUnit v t.2 now)
    else Except.error ParseErr.outOfRange

/-- The parser with its failure modes kept observable: an error value means
an exception propagates out of parse_relative_time_string. -/
def parseCheckedE (s : String) (now : DateTime) : Except ParseErr DateTime :=
  (tokensOf s).foldlM applyTokenCheckedE now

/-- The checked parser with the error kind erased: none means some exception
was raised inside the parse. -/
def parseChecked (s : String) (now : DateTime) : Option DateTime :=
  match parseCheckedE s now with
  | Except.ok r => some r
  | Except.error _ => none

/-- The fetch command's found_min_id update: set when unset, else keep the
smaller id. -/
def updateMinId (acc : Option Nat) (msgId : Nat) : Option Nat :=
  match acc with
  | none => some msgId
  | some v => if msgId < v then some msgId else some v

/-- found_min_id after a fetch session that delivered the given message ids
in order: starts unset (None) and is updated once per processed message. -/
def runSession (ids : List Nat) : Option Nat :=
  ids.foldl updateMinId none

/-- Python truthiness of the --since option value: None and the empty string
are falsy. -/
def sinceTruthy : Option String → Bool
  | none => false
  | some s => s != ""

/-- since_date = parse_relative_time_string(since) if since else None. -/
def sinceDate (since : Option String) (now : DateTime) : Option DateTime :=
  if sinceTruthy since then
    some (parse_relative_time_string (since.getD ("")) now)
  else none

/-- The --since resolution step of fetch with the parser's failure modes
kept observable: outer none means an exception escaped the parser (caught
by the except-wrapper and re-raised as click.BadParameter); some d means
fetch proceeds with since_date = d. -/
def resolveSinceChecked (since : Option String) (now : DateTime) :
    Option (Option DateTime) :=
  if sinceTruthy since then (parseChecked (since.getD ("")) now).map some
  else some none

/-- The post-loop summary of fetch: printed (some) exactly when since is
truthy and verbose is set, carrying the effective since timestamp and the
minimum observed message id. -/
def fetchSummary (since : Option String) (verbose : Bool) (now : DateTime)
    (ids : List Nat) : Option (Option DateTime × Option Nat) :=
  if sinceTruthy since && verbose then some (sinceDate since now, runSession ids)
  else none

/-- Well-formedness of a datetime value, as Python's constructor enforces
(year range aside, see the header note). -/
def DateTime.Valid (dt : DateTime) : Prop :=
  1 ≤ dt.month ∧ dt.month ≤ 12 ∧ 1 ≤ dt.day ∧
  dt.day ≤ daysInMonth dt.year dt.month ∧
  dt.hour ≤ 23 ∧ dt.minute ≤ 59 ∧ dt.second ≤ 59 ∧ dt.microsecond ≤ 999999

instance instDecidableValid (dt : DateTime) : Decidable dt.Valid := by
  unfold DateTime.Valid
  infer_instance

/-- Strict order on the date components (year, month, day), lexicographic. -/
def dateLt (a b : DateTime) : Prop :=
  a.year < b.year ∨
  (a.year = b.year ∧
    (a.month < b.month ∨ (a.month = b.month ∧ a.day < b.day)))

instance instDecidableDateLt (a b : DateTime) : Decidable (dateLt a b) := by
  unfold dateLt
  infer_instance

/-- Python's datetime comparison: lexicographic over all seven fields. -/
def DateTime.le (a b : DateTime) : Prop :=
  dateLt a b ∨
  (a.year = b.year ∧ a.month = b.month ∧ a.day = b.day ∧
    (a.hour < b.hour ∨
      (a.hour = b.hour ∧
        (a.minute < b.minute ∨
          (a.minute = b.minute ∧
            (a.second < b.second ∨
              (a.second = b.second ∧ a.microsecond ≤ b.microsecond)))))))

instance instDecidableDTLe (a b : DateTime) : Decidable (DateTime.le a b) := by
  unfold DateTime.le dateLt
  infer_instance

/-- Auxiliary weak order on the date components. -/
def dateLe (a b : DateTime) : Prop :=
  dateLt a b ∨ (a.year = b.year ∧ a.month = b.month ∧ a.day = b.day)

lemma subDay1_time (dt : DateTime) :
    (subDay1 dt).hour = dt.hour ∧ (subDay1 dt).minute = dt.minute ∧
    (subDay1 dt).second = dt.second ∧ (subDay1 dt).microsecond = dt.microsecond := by
  unfold subDay1
  split
  · exact ⟨rfl, rfl, rfl, rfl⟩
  · split <;> exact ⟨rfl, rfl, rfl, rfl⟩

lemma subDays_time (n : Nat) (dt : DateTime) :
    (subDays n dt).hour = dt.hour ∧ (subDays n dt).minute = dt.minute ∧
    (subDays n dt).second = dt.second ∧ (subDays n dt).microsecond = dt.microsecond := by
  induction n generalizing dt with
  | zero => exact ⟨rfl, rfl, rfl, rfl⟩
  | succ k ih =>
    have hstep : subDays (k + 1) dt = subDays k (subDay1 dt) := by
      unfold subDays
      rw [Function.iterate_succ_apply]
    rw [hstep]
    obtain ⟨i1, i2, i3, i4⟩ := ih (subDay1 dt)
    obtain ⟨s1, s2, s3, s4⟩ := subDay1_time dt
    exact ⟨i1.trans s1, i2.trans s2, i3.trans s3, i4.trans s4⟩

lemma daysInMonth_pos (y : Int) (m : Nat) (h1 : 1 ≤ m) (h2 : m ≤ 12) :
    1 ≤ daysInMonth y m := by
  interval_cases m <;> simp [daysInMonth] <;> split <;> omega

lemma subDay1_valid (dt : DateTime) (h : dt.Valid) : (subDay1 dt).Valid := by
  obtain ⟨h1, h2, h3, h4, h5, h6, h7, h8⟩ := h
  unfold DateTime.Valid subDay1
  split
  · dsimp
    omega
  · split
    · dsimp
      have hpos := daysInMonth_pos dt.year (dt.month - 1) (by omega) (by omega)
      omega
    · dsimp
      have h31 : daysInMonth (dt.year - 1) 12 = 31 := rfl
      omega

lemma subDays_valid (n : Nat) (dt : DateTime) (h : dt.Valid) : (subDays n dt).Valid := by
  induction n generalizing dt with
  | zero => exact h
  | succ k ih =>
    have hstep : subDays (k + 1) dt = subDays k (subDay1 dt) := by
      unfold subDays
      rw [Function.iterate_succ_apply]
    rw [hstep]
    exact ih (subDay1 dt) (subDay1_valid dt h)

lemma subMinutes_valid (k : Nat) (dt : DateTime) (h : dt.Valid) :
    (subMinutes k dt).Valid := by
  have hsub := subDays_valid (borrowDays k dt) dt h
  obtain ⟨g1, g2, g3, g4, g5, g6, g7, g8⟩ := hsub
  have htod : newTimeOfDay k dt < 1440 := by
    unfold newTimeOfDay
    omega
  unfold subMinutes DateTime.Valid
  dsimp
  exact ⟨g1, g2, g3, g4, by omega, by omega, g7, g8⟩

lemma subMonths_valid (v : Nat) (dt : DateTime) (h : dt.Valid) :
    (subMonths v dt).Valid := by
  obtain ⟨h1, h2, h3, h4, h5, h6, h7, h8⟩ := h
  unfold subMonths DateTime.Valid
  dsimp
  have hpos := daysInMonth_pos
    ((dt.year * 12 + (dt.month : Int) - 1 - (v : Int)) / 12)
    (((dt.year * 12 + (dt.month : Int) - 1 - (v : Int)) % 12).toNat + 1)
    (by omega) (by omega)
  omega

lemma dtle_refl (a : DateTime) : a.le a := by
  unfold DateTime.le dateLt
  omega

lemma dtle_trans {a b c : DateTime} (h1 : a.le b) (h2 : b.le c) : a.le c := by
  unfold DateTime.le dateLt at h1 h2 ⊢
  omega

lemma dateLe_lt_trans {a b c : DateTime} (h1 : dateLe a b) (h2 : dateLt b c) :
    dateLt a c := by
  unfold dateLe dateLt at h1
  unfold dateLt at h2 ⊢
  omega

lemma dateLe_trans {a b c : DateTime} (h1 : dateLe a b) (h2 : dateLe b c) :
    dateLe a c := by
  unfold dateLe dateLt at h1
  unfold dateLe dateLt at h2
  unfold dateLe dateLt
  omega

lemma subDay1_dateLt (dt : DateTime) : dateLt (subDay1 dt) dt := by
  unfold subDay1 dateLt
  split
  · dsimp
    omega
  · split <;> dsimp <;> omega

lemma subDays_dateLe (n : Nat) (dt : DateTime) : dateLe (subDays n dt) dt := by
  induction n generalizing dt with
  | zero =>
    unfold dateLe
    right
    exact ⟨rfl, rfl, rfl⟩
  | succ k ih =>
    have hstep : subDays (k + 1) dt = subDays k (subDay1 dt) := by
      unfold subDays
      rw [Function.iterate_succ_apply]
    rw [hstep]
    exact dateLe_trans (ih (subDay1 dt)) (Or.inl (subDay1_dateLt dt))

lemma subDays_dateLt (n : Nat) (dt : DateTime) (h : 1 ≤ n) :
    dateLt (subDays n dt) dt := by
  obtain ⟨k, rfl⟩ : ∃ k, n = k + 1 := ⟨n - 1, by omega⟩
  have hstep : subDays (k + 1) dt = subDays k (subDay1 dt) := by
    unfold subDays
    rw [Function.iterate_succ_apply]
  rw [hstep]
  exact dateLe_lt_trans (subDays_dateLe k (subDay1 dt)) (subDay1_dateLt dt)

lemma subMinutes_le (k : Nat) (dt : DateTime) (h : dt.Valid) :
    (subMinutes k dt).le dt := by
  obtain ⟨h1, h2, h3, h4, h5, h6, h7, h8⟩ := h
  by_cases hk : (k : Int) ≤ ((timeOfDay dt : Nat) : Int)
  · unfold timeOfDay at hk
    have hb : borrowDays k dt = 0 := by
      unfold borrowDays timeOfDay
      omega
    have h0 : subDays 0 dt = dt := rfl
    unfold subMinutes
    rw [hb, h0]
    unfold DateTime.le dateLt newTimeOfDay timeOfDay
    dsimp
    omega
  · unfold timeOfDay at hk
    have hb : 1 ≤ borrowDays k dt := by
      unfold borrowDays timeOfDay
      omega
    have hlt : dateLt (subDays (borrowDays k dt) dt) dt :=
      subDays_dateLt (borrowDays k dt) dt hb
    unfold subMinutes
    apply Or.inl
    unfold dateLt at hlt ⊢
    dsimp
    omega

lemma subMonths_le (v : Nat) (dt : DateTime) (h : dt.Valid) :
    (subMonths v dt).le dt := by
  obtain ⟨h1, h2, h3, h4, h5, h6, h7, h8⟩ := h
  unfold subMonths DateTime.le dateLt
  dsimp
  omega

lemma applyUnit_le (value : Nat) (u : TimeUnit) (now : DateTime) (h : now.Valid) :
    (applyUnit value u now).le now := by
  cases u
  · exact subMonths_le value now h
  · exact subMinutes_le (value * 10080) now h
  · exact subMinutes_le (value * 1440) now h
  · exact subMinutes_le (value * 60) now h
  · exact subMinutes_le value now h

lemma applyUnit_valid (value : Nat) (u : TimeUnit) (now : DateTime) (h : now.Valid) :
    (applyUnit value u now).Valid := by
  cases u
  · exact subMonths_valid value now h
  · exact subMinutes_valid (value * 10080) now h
  · exact subMinutes_valid (value * 1440) now h
  · exact subMinutes_valid (value * 60) now h
  · exact subMinutes_valid value now h

lemma applyToken_le (now : DateTime) (t : List Char × TimeUnit) (h : now.Valid) :
    (applyToken now t).le now :=
  applyUnit_le (digitsToNat t.1) t.2 now h

lemma applyToken_valid (now : DateTime) (t : List Char × TimeUnit) (h : now.Valid) :
    (applyToken now t).Valid :=
  applyUnit_valid (digitsToNat t.1) t.2 now h

lemma foldl_applyToken_le (ts : List (List Char × TimeUnit)) :
    ∀ now : DateTime, now.Valid → (ts.foldl applyToken now).le now := by
  induction ts with
  | nil =>
    intro now _
    exact dtle_refl now
  | cons t ts ih =>
    intro now h
    rw [List.foldl_cons]
    exact dtle_trans (ih (applyToken now t) (applyToken_valid now t h))
      (applyToken_le now t h)

lemma subMinutes_mul1440 (n : Nat) (dt : DateTime) (h : dt.Valid) :
    subMinutes (n * 1440) dt = subDays n dt := by
  obtain ⟨h1, h2, h3, h4, h5, h6, h7, h8⟩ := h
  have hb : borrowDays (n * 1440) dt = n := by
    unfold borrowDays timeOfDay
    omega
  have ht : newTimeOfDay (n * 1440) dt = dt.hour * 60 + dt.minute := by
    unfold newTimeOfDay timeOfDay
    omega
  obtain ⟨t1, t2, t3, t4⟩ := subDays_time n dt
  unfold subMinutes
  rw [hb, ht]
  refine DateTime.ext rfl rfl rfl ?_ ?_ rfl rfl
  · show (dt.hour * 60 + dt.minute) / 60 = (subDays n dt).hour
    rw [t1]
    omega
  · show (dt.hour * 60 + dt.minute) % 60 = (subDays n dt).minute
    rw [t2]
    omega

lemma takeDigits_digits (cs : List Char) :
    (takeDigits cs).1.all Char.isDigit = true := by
  induction cs with
  | nil => rfl
  | cons c rest ih =>
    unfold takeDigits
    by_cases hc : c.isDigit
    · rw [if_pos hc]
      cases htd : takeDigits rest with
      | mk ds r =>
        rw [htd] at ih
        simpa [hc] using ih
    · rw [if_neg hc]
      rfl

lemma matchToken_digits (cs : List Char) (ds : List Char) (u : TimeUnit)
    (rest : List Char) (h : matchToken cs = some (ds, u, rest)) :
    ds ≠ [] ∧ ds.all Char.isDigit = true := by
  unfold matchToken at h
  split at h
  · simp at h
  · rename_i x1 ds0 rest0 hne heq
    split at h
    · rename_i x2 u0 rest2 hmu
      simp only [Option.some.injEq, Prod.mk.injEq] at h
      obtain ⟨hds, _, _⟩ := h
      have hdig := takeDigits_digits cs
      rw [heq] at hdig
      subst hds
      exact ⟨fun hnil => hne hnil, by simpa using hdig⟩
    · simp at h

lemma findTokensAux_digits (fuel : Nat) :
    ∀ (cs ds : List Char) (u : TimeUnit),
      (ds, u) ∈ findTokensAux fuel cs →
      ds ≠ [] ∧ ds.all Char.isDigit = true := by
  induction fuel with
  | zero =>
    intro cs ds u h
    simp [findTokensAux] at h
  | succ k ih =>
    intro cs ds u h
    cases cs with
    | nil => simp [findTokensAux] at h
    | cons c rest =>
      unfold findTokensAux at h
      cases hm : matchToken (c :: rest) with
      | none =>
        rw [hm] at h
        exact ih rest ds u h
      | some t =>
        obtain ⟨ds0, u0, rest2⟩ := t
        rw [hm] at h
        rcases List.mem_cons.mp h with heq | htail
        · obtain ⟨h1, h2⟩ := Prod.mk.injEq .. ▸ heq
          subst h1
          exact matchToken_digits (c :: rest) ds u0 rest2 hm
        · exact ih rest2 ds u htail

lemma tokensOf_digits (s : String) (ds : List Char) (u : TimeUnit)
    (h : (ds, u) ∈ tokensOf s) : ds ≠ [] ∧ ds.all Char.isDigit = true :=
  findTokensAux_digits (lowerData s).length (lowerData s) ds u h

lemma parseIntOpt_of_digits (ds : List Char) (h1 : ds ≠ [])
    (h2 : ds.all Char.isDigit = true) : parseIntOpt ds = some (digitsToNat ds) := by
  unfold parseIntOpt
  rw [if_neg h1, if_pos h2]

lemma foldlM_applyTokenCheckedE (ts : List (List Char × TimeUnit)) :
    ∀ now : DateTime,
      (∀ t ∈ ts, t.1 ≠ [] ∧ t.1.all Char.isDigit = true) →
      ts.foldlM applyTokenCheckedE now ≠ Except.error ParseErr.badInt ∧
      ∀ r, ts.foldlM applyTokenCheckedE now = Except.ok r →
        r = ts.foldl applyToken now := by
  induction ts with
  | nil =>
    intro now _
    constructor
    · intro hc
      rw [List.foldlM_nil] at hc
      exact Except.noConfusion hc
    · intro r hr
      rw [List.foldlM_nil] at hr
      exact (Except.ok.inj hr).symm
  | cons t ts ih =>
    intro now h
    obtain ⟨h1, h2⟩ := h t (List.mem_cons_self t ts)
    have hint : parseIntOpt t.1 = some (digitsToNat t.1) :=
      parseIntOpt_of_digits t.1 h1 h2
    have hrest : ∀ x ∈ ts, x.1 ≠ [] ∧ x.1.all Char.isDigit = true :=
      fun x hx => h x (List.mem_cons_of_mem t hx)
    rw [List.foldlM_cons]
    by_cases hR : inPyYearRange (applyUnit (digitsToNat t.1) t.2 now)
    · have hstep : applyTokenCheckedE now t = Except.ok (applyToken now t) := by
        unfold applyTokenCheckedE
        rw [hint]
        show (if inPyYearRange (applyUnit (digitsToNat t.1) t.2 now)
            then Except.ok (applyUnit (digitsToNat t.1) t.2 now)
            else Except.error ParseErr.outOfRange) = Except.ok (applyToken now t)
        rw [if_pos hR]
        rfl
      rw [hstep]
      have hbind : ((Except.ok (applyToken now t) : Except ParseErr DateTime) >>=
          fun x => ts.foldlM applyTokenCheckedE x) =
          ts.foldlM applyTokenCheckedE (applyToken now t) := rfl
      rw [hbind]
      obtain ⟨ihe, ihok⟩ := ih (applyToken now t) hrest
      refine ⟨ihe, ?_⟩
      intro r hr
      rw [List.foldl_cons]
      exact ihok r hr
    · have hstep : applyTokenCheckedE now t = Except.error ParseErr.outOfRange := by
        unfold applyTokenCheckedE
        rw [hint]
        show (if inPyYearRange (applyUnit (digitsToNat t.1) t.2 now)
            then Except.ok (applyUnit (digitsToNat t.1) t.2 now)
            else Except.error ParseErr.outOfRange) = Except.error ParseErr.outOfRange
        rw [if_neg hR]
      rw [hstep]
      have hbind : ((Except.error ParseErr.outOfRange : Except ParseErr DateTime) >>=
          fun x => ts.foldlM applyTokenCheckedE x) =
          (Except.error ParseErr.outOfRange : Except ParseErr DateTime) := rfl
      rw [hbind]
      constructor
      · intro hc
        exact ParseErr.noConfusion (Except.error.inj hc)
      · intro r hr
        exact Except.noConfusion hr

lemma foldl_updateMinId_some (l : List Nat) :
    ∀ v : Nat, l.foldl updateMinId (some v) = some (l.foldl Nat.min v) := by
  induction l with
  | nil =>
    intro v
    rfl
  | cons a l ih =>
    intro v
    rw [List.foldl_cons, List.foldl_cons]
    have hstep : updateMinId (some v) a = some (Nat.min v a) := by
      show (if a < v then some a else some v) = some (Nat.min v a)
      split
      · rename_i hlt
        have hm : Nat.min v a = a := min_eq_right (Nat.le_of_lt hlt)
        rw [hm]
      · rename_i hge
        have hm : Nat.min v a = v := min_eq_left (by omega)
        rw [hm]
    rw [hstep]
    exact ih (Nat.min v a)

lemma runSession_cons (x : Nat) (xs : List Nat) :
    runSession (x :: xs) = some (xs.foldl Nat.min x) := by
  unfold runSession
  rw [List.foldl_cons]
  exact foldl_updateMinId_some xs x

lemma foldl_min_le (l : List Nat) :
    ∀ v : Nat, l.foldl Nat.min v ≤ v ∧ ∀ y ∈ l, l.foldl Nat.min v ≤ y := by
  induction l with
  | nil =>
    intro v
    exact ⟨Nat.le_refl v, by simp⟩
  | cons a l ih =>
    intro v
    rw [List.foldl_cons]
    obtain ⟨ih1, ih2⟩ := ih (Nat.min v a)
    refine ⟨le_trans ih1 (Nat.min_le_left v a), ?_⟩
    intro y hy
    rcases List.mem_cons.mp hy with rfl | hy
    · exact le_trans ih1 (Nat.min_le_right v y)
    · exact ih2 y hy

lemma foldl_min_mem (l : List Nat) :
    ∀ v : Nat, l.foldl Nat.min v = v ∨ l.foldl Nat.min v ∈ l := by
  induction l with
  | nil =>
    intro v
    exact Or.inl rfl
  | cons a l ih =>
    intro v
    rw [List.foldl_cons]
    rcases ih (Nat.min v a) with h | h
    · rcases Nat.le_total v a with hva | hav
      · left
        rw [h]
        exact min_eq_left hva
      · right
        rw [List.mem_cons]
        left
        rw [h]
        exact min_eq_right hav
    · right
      exact List.mem_cons_of_mem a h

lemma le_foldl_min (l : List Nat) :
    ∀ v m : Nat, m ≤ v → (∀ y ∈ l, m ≤ y) → m ≤ l.foldl Nat.min v := by
  induction l with
  | nil =>
    intro v m h _
    exact h
  | cons a l ih =>
    intro v m h hl
    rw [List.foldl_cons]
    exact ih (Nat.min v a) m
      (le_min h (hl a (List.mem_cons_self a l)))
      (fun y hy => hl y (List.mem_cons_of_mem a hy))

lemma runSession_eq_some_iff (l : List Nat) (m : Nat) :
    runSession l = some m ↔ m ∈ l ∧ ∀ y ∈ l, m ≤ y := by
  cases l with
  | nil =>
    constructor
    · intro h
      simp [runSession] at h
    · intro h
      simp at h
  | cons x xs =>
    rw [runSession_cons]
    constructor
    · intro h
      have hm : m = xs.foldl Nat.min x := by
        simpa using h.symm
      subst hm
      obtain ⟨hle, hall⟩ := foldl_min_le xs x
      refine ⟨?_, ?_⟩
      · rcases foldl_min_mem xs x with h | h
        · rw [h]
          exact List.mem_cons_self x xs
        · exact List.mem_cons_of_mem x h
      · intro y hy
        rcases List.mem_cons.mp hy with rfl | hy
        · exact hle
        · exact hall y hy
    · intro h
      obtain ⟨hmem, hlb⟩ := h
      have h1 : xs.foldl Nat.min x ≤ m := by
        rcases List.mem_cons.mp hmem with rfl | hm
        · exact (foldl_min_le xs m).1
        · exact (foldl_min_le xs x).2 m hm
      have h2 : m ≤ xs.foldl Nat.min x :=
        le_foldl_min xs x m (hlb x (List.mem_cons_self x xs))
          (fun y hy => hlb y (List.mem_cons_of_mem x hy))
      have : m = xs.foldl Nat.min x := le_antisymm h2 h1
      rw [this]

lemma runSession_eq_none_iff (l : List Nat) : runSession l = none ↔ l = [] := by
  cases l with
  | nil => simp [runSession]
  | cons x xs =>
    rw [runSession_cons]
    simp

lemma runSession_perm (l l2 : List Nat) (h : List.Perm l l2) :
    runSession l = runSession l2 := by
  cases hr : runSession l2 with
  | none =>
    rw [runSession_eq_none_iff] at hr
    subst hr
    rw [runSession_eq_none_iff]
    exact List.perm_nil.mp h
  | some m =>
    rw [runSession_eq_some_iff] at hr
    rw [runSession_eq_some_iff]
    obtain ⟨hmem, hlb⟩ := hr
    exact ⟨h.mem_iff.mpr hmem, fun y hy => hlb y (h.mem_iff.mp hy)⟩

lemma parse_one_w_token (s : String) (T : DateTime) (hT : T.Valid)
    (ht : tokensOf s = [([ '1' ], TimeUnit.w)]) :
    parse_relative_time_string s T = subDays 7 T := by
  unfold parse_relative_time_string
  rw [ht, List.foldl_cons, List.foldl_nil]
  show applyUnit (digitsToNat ([ '1' ])) TimeUnit.w T = subDays 7 T
  have hd : digitsToNat ([ '1' ]) = 1 := by decide
  rw [hd]
  show subMinutes (1 * 10080) T = subDays 7 T
  have e : (1 * 10080 : Nat) = 7 * 1440 := by norm_num
  rw [e]
  exact subMinutes_mul1440 7 T hT

lemma parse_1mo_eq (T : DateTime) :
    parse_relative_time_string ("1mo") T = subMonths 1 T := by
  have ht : tokensOf ("1mo") = [([ '1' ], TimeUnit.mo)] := by decide
  unfold parse_relative_time_string
  rw [ht, List.foldl_cons, List.foldl_nil]
  show applyUnit (digitsToNat ([ '1' ])) TimeUnit.mo T = subMonths 1 T
  have hd : digitsToNat ([ '1' ]) = 1 := by decide
  rw [hd]
  rfl

lemma parse_1m_eq (T : DateTime) :
    parse_relative_time_string ("1m") T = subMinutes 1 T := by
  have ht : tokensOf ("1m") = [([ '1' ], TimeUnit.m)] := by decide
  unfold parse_relative_time_string
  rw [ht, List.foldl_cons, List.foldl_nil]
  show applyUnit (digitsToNat ([ '1' ])) TimeUnit.m T = subMinutes 1 T
  have hd : digitsToNat ([ '1' ]) = 1 := by decide
  rw [hd]
  rfl

/-- C1: for a fixed current instant T, parsing is deterministic and matches
the reference arithmetic: "1w" yields T minus 7 days, "1w 2d" applies both
tokens and yields T minus 9 days, and "0d" is a legal no-op leaving T
unchanged. -/
theorem parse_reference_arithmetic (T : DateTime) (h : T.Valid) :
    parse_relative_time_string ("1w") T = subDays 7 T ∧
    parse_relative_time_string ("1w 2d") T = subDays 9 T ∧
    parse_relative_time_string ("0d") T = T := by
  refine ⟨parse_one_w_token ("1w") T h (by decide), ?_, ?_⟩
  · have ht : tokensOf ("1w 2d") = [([ '1' ], TimeUnit.w), ([ '2' ], TimeUnit.d)] := by
      decide
    unfold parse_relative_time_string
    rw [ht, List.foldl_cons, List.foldl_cons, List.foldl_nil]
    show applyUnit (digitsToNat ([ '2' ])) TimeUnit.d
      (applyUnit (digitsToNat ([ '1' ])) TimeUnit.w T) = subDays 9 T
    have hd1 : digitsToNat ([ '1' ]) = 1 := by decide
    have hd2 : digitsToNat ([ '2' ]) = 2 := by decide
    rw [hd1, hd2]
    show subMinutes (2 * 1440) (subMinutes (1 * 10080) T) = subDays 9 T
    have e : (1 * 10080 : Nat) = 7 * 1440 := by norm_num
    rw [e, subMinutes_mul1440 7 T h,
      subMinutes_mul1440 2 (subDays 7 T) (subDays_valid 7 T h)]
    show subDay1^[2] (subDay1^[7] T) = subDay1^[9] T
    rw [← Function.iterate_add_apply]
  · have ht : tokensOf ("0d") = [([ '0' ], TimeUnit.d)] := by decide
    unfold parse_relative_time_string
    rw [ht, List.foldl_cons, List.foldl_nil]
    show applyUnit (digitsToNat ([ '0' ])) TimeUnit.d T = T
    have hd : digitsToNat ([ '0' ]) = 0 := by decide
    rw [hd]
    show subMinutes (0 * 1440) T = T
    rw [subMinutes_mul1440 0 T h]
    rfl

theorem parse_reference_arithmetic_witness :
    DateTime.Valid ⟨2025, 6, 15, 12, 30, 0, 0⟩ ∧
    (parse_relative_time_string ("1w") ⟨2025, 6, 15, 12, 30, 0, 0⟩ =
        subDays 7 ⟨2025, 6, 15, 12, 30, 0, 0⟩ ∧
      parse_relative_time_string ("1w 2d") ⟨2025, 6, 15, 12, 30, 0, 0⟩ =
        subDays 9 ⟨2025, 6, 15, 12, 30, 0, 0⟩ ∧
      parse_relative_time_string ("0d") ⟨2025, 6, 15, 12, 30, 0, 0⟩ =
        ⟨2025, 6, 15, 12, 30, 0, 0⟩) :=
  ⟨by decide, parse_reference_arithmetic ⟨2025, 6, 15, 12, 30, 0, 0⟩ (by decide)⟩

/-- C2: token precedence: "1mo" tokenizes as the single month token (the m
inside mo is never matched as a minutes token), it subtracts one calendar
month, and the result differs from parsing "1m" at every valid instant. -/
theorem token_precedence_mo (T : DateTime) (h : T.Valid) :
    tokensOf ("1mo") = [([ '1' ], TimeUnit.mo)] ∧
    parse_relative_time_string ("1mo") T = subMonths 1 T ∧
    parse_relative_time_string ("1mo") T ≠ parse_relative_time_string ("1m") T := by
  obtain ⟨h1, h2, h3, h4, h5, h6, h7, h8⟩ := h
  refine ⟨by decide, parse_1mo_eq T, ?_⟩
  rw [parse_1mo_eq T, parse_1m_eq T]
  intro heq
  have hmin := congrArg DateTime.minute heq
  have hL : (subMonths 1 T).minute = T.minute := rfl
  have hR : (subMinutes 1 T).minute = newTimeOfDay 1 T % 60 := rfl
  rw [hL, hR] at hmin
  unfold newTimeOfDay timeOfDay at hmin
  omega

theorem token_precedence_mo_witness :
    tokensOf ("1mo") = [([ '1' ], TimeUnit.mo)] ∧
    parse_relative_time_string ("1mo") ⟨2025, 1, 1, 0, 0, 0, 0⟩ =
      subMonths 1 ⟨2025, 1, 1, 0, 0, 0, 0⟩ ∧
    parse_relative_time_string ("1mo") ⟨2025, 1, 1, 0, 0, 0, 0⟩ ≠
      parse_relative_time_string ("1m") ⟨2025, 1, 1, 0, 0, 0, 0⟩ :=
  token_precedence_mo ⟨2025, 1, 1, 0, 0, 0, 0⟩ (by decide)

/-- C3: month subtraction is calendar-aware with end-of-month clamping:
parsing "1mo" keeps the day-of-month when it exists in the target month,
clamps to the last valid day otherwise, and from March 31 of any year lands
on the last day of February of that year (29 in leap years, else 28). -/
theorem month_subtraction_clamps (T : DateTime) (h : T.Valid) :
    (daysInMonth (parse_relative_time_string ("1mo") T).year
        (parse_relative_time_string ("1mo") T).month < T.day →
      (parse_relative_time_string ("1mo") T).day =
        daysInMonth (parse_relative_time_string ("1mo") T).year
          (parse_relative_time_string ("1mo") T).month) ∧
    (T.day ≤ daysInMonth (parse_relative_time_string ("1mo") T).year
        (parse_relative_time_string ("1mo") T).month →
      (parse_relative_time_string ("1mo") T).day = T.day) ∧
    (T.month = 3 ∧ T.day = 31 →
      (parse_relative_time_string ("1mo") T).year = T.year ∧
      (parse_relative_time_string ("1mo") T).month = 2 ∧
      (parse_relative_time_string ("1mo") T).day =
        (if isLeap T.year then 29 else 28)) := by
  obtain ⟨h1, h2, h3, h4, h5, h6, h7, h8⟩ := h
  rw [parse_1mo_eq T]
  unfold subMonths
  dsimp
  refine ⟨?_, ?_, ?_⟩
  · intro hlt
    exact min_eq_right (Nat.le_of_lt hlt)
  · intro hle
    exact min_eq_left hle
  · intro hc
    obtain ⟨hm3, hd31⟩ := hc
    have hy : (T.year * 12 + (T.month : Int) - 1 - 1) / 12 = T.year := by
      omega
    have hm : ((T.year * 12 + (T.month : Int) - 1 - 1) % 12).toNat + 1 = 2 := by
      omega
    refine ⟨hy, hm, ?_⟩
    rw [hy, hm, hd31]
    show min 31 (if isLeap T.year then 29 else 28) = if isLeap T.year then 29 else 28
    split <;> decide

theorem month_subtraction_clamps_witness :
    (parse_relative_time_string ("1mo") ⟨2024, 3, 31, 10, 0, 0, 0⟩).day = 29 := by
  have h := month_subtraction_clamps ⟨2024, 3, 31, 10, 0, 0, 0⟩ (by decide)
  have h3 := h.2.2 ⟨rfl, rfl⟩
  rw [h3.2.2]
  decide

/-- C4 counterexample: an input with no recognizable token ("bogus") does
not make the parser fail: it tokenizes to nothing, the parse returns now
unchanged, and the fetch-side resolution succeeds instead of surfacing a
parameter error. -/
theorem no_token_failure_cex :
    tokensOf ("bogus") = [] ∧
    parse_relative_time_string ("bogus") ⟨2025, 1, 2, 3, 4, 5, 6⟩ =
      ⟨2025, 1, 2, 3, 4, 5, 6⟩ ∧
    resolveSinceChecked (some ("bogus")) ⟨2025, 1, 2, 3, 4, 5, 6⟩ =
      some (some ⟨2025, 1, 2, 3, 4, 5, 6⟩) :=
  ⟨by decide, by decide, by decide⟩

/-- C4 (amended): on every input whose token scan finds nothing the parser
does not fail - it returns the current instant unchanged and the checked
variant (with int() kept fallible) succeeds with that same instant, so no
MalformedDurationExpression/BadParameter error is raised for such inputs. -/
theorem no_token_input_returns_now (s : String) (T : DateTime)
    (h : tokensOf s = []) :
    parse_relative_time_string s T = T ∧ parseChecked s T = some T := by
  constructor
  · unfold parse_relative_time_string
    rw [h]
    rfl
  · unfold parseChecked parseCheckedE
    rw [h]
    rfl

theorem no_token_input_returns_now_witness :
    tokensOf ("xyzzy") = [] ∧
    (parse_relative_time_string ("xyzzy") ⟨2030, 12, 31, 23, 59, 59, 999999⟩ =
        ⟨2030, 12, 31, 23, 59, 59, 999999⟩ ∧
      parseChecked ("xyzzy") ⟨2030, 12, 31, 23, 59, 59, 999999⟩ =
        some ⟨2030, 12, 31, 23, 59, 59, 999999⟩) :=
  ⟨by decide,
    no_token_input_returns_now ("xyzzy") ⟨2030, 12, 31, 23, 59, 59, 999999⟩ (by decide)⟩

/-- C5 counterexample: resolution CAN raise: with --since "99999999mo" the
single month token is matched, the subtraction leaves datetime's supported
year range, the checked parser reports the out-of-range exception, and the
fetch-side resolution takes the parameter-error path (outer none) even
though the option was given - refuting "for every --since string,
resolution never raises". -/
theorem since_resolution_overflow_cex :
    (some ("99999999mo") : Option String) ≠ none ∧
    parseCheckedE ("99999999mo") ⟨2025, 10, 12, 0, 0, 0, 0⟩ =
      Except.error ParseErr.outOfRange ∧
    resolveSinceChecked (some ("99999999mo")) ⟨2025, 10, 12, 0, 0, 0, 0⟩ = none :=
  ⟨by simp, by rfl, by decide⟩

/-- C5 (amended): the non-integer-magnitude failure mode is unreachable -
the checked parser never reports the int() error because matched magnitude
groups are digit-only - and a successful resolution agrees with the
reference parse; "bogus" (no matching tokens) raises no parameter error and
resolves to the current instant. The one reachable raise is the date
arithmetic leaving datetime's supported year range. -/
theorem since_resolution_raises_only_for_out_of_range (s : String) (T : DateTime) :
    parseCheckedE s T ≠ Except.error ParseErr.badInt ∧
    (∀ r, parseCheckedE s T = Except.ok r → r = parse_relative_time_string s T) ∧
    parse_relative_time_string ("bogus") T = T ∧
    parseChecked ("bogus") T = some T ∧
    resolveSinceChecked (some ("bogus")) T = some (some T) := by
  have hmain := foldlM_applyTokenCheckedE (tokensOf s) T
    (fun t ht => tokensOf_digits s t.1 t.2 (by simpa using ht))
  have hb : tokensOf ("bogus") = [] := by decide
  have hpc : parseChecked ("bogus") T = some T := by
    unfold parseChecked parseCheckedE
    rw [hb]
    rfl
  refine ⟨hmain.1, ?_, ?_, hpc, ?_⟩
  · intro r hr
    exact hmain.2 r hr
  · unfold parse_relative_time_string
    rw [hb]
    rfl
  · unfold resolveSinceChecked
    rw [if_pos (by decide)]
    have hg : ((some ("bogus") : Option String).getD ("")) = "bogus" := rfl
    rw [hg, hpc]
    rfl

/-- C6: noise tolerance and identity on no-match input: non-matching text is
ignored, so "fetch since 1w please" parses like "1w" (T minus 7 days), while
the empty string and "xyz" leave T unchanged. -/
theorem noise_tolerance_identity (T : DateTime) (h : T.Valid) :
    parse_relative_time_string ("fetch since 1w please") T = subDays 7 T ∧
    parse_relative_time_string ("") T = T ∧
    parse_relative_time_string ("xyz") T = T := by
  refine ⟨parse_one_w_token ("fetch since 1w please") T h (by decide), rfl, ?_⟩
  have hx : tokensOf ("xyz") = [] := by decide
  unfold parse_relative_time_string
  rw [hx]
  rfl

theorem noise_tolerance_identity_witness :
    parse_relative_time_string ("fetch since 1w please") ⟨2026, 2, 10, 8, 0, 0, 0⟩ =
      subDays 7 ⟨2026, 2, 10, 8, 0, 0, 0⟩ ∧
    parse_relative_time_string ("") ⟨2026, 2, 10, 8, 0, 0, 0⟩ =
      ⟨2026, 2, 10, 8, 0, 0, 0⟩ ∧
    parse_relative_time_string ("xyz") ⟨2026, 2, 10, 8, 0, 0, 0⟩ =
      ⟨2026, 2, 10, 8, 0, 0, 0⟩ :=
  noise_tolerance_identity ⟨2026, 2, 10, 8, 0, 0, 0⟩ (by decide)

/-- C7: tokens are applied in left-to-right textual order and units may
repeat: "1d 1d" subtracts two days at every valid instant, and from
May 31 12:00 the compounds "1mo 1d" and "1d 1mo" end on different days
(April 29 vs April 30), so the order of application is observable. -/
theorem tokens_applied_left_to_right (T : DateTime) (h : T.Valid) :
    parse_relative_time_string ("1d 1d") T = subDays 2 T ∧
    parse_relative_time_string ("1mo 1d") ⟨2025, 5, 31, 12, 0, 0, 0⟩ =
      ⟨2025, 4, 29, 12, 0, 0, 0⟩ ∧
    parse_relative_time_string ("1d 1mo") ⟨2025, 5, 31, 12, 0, 0, 0⟩ =
      ⟨2025, 4, 30, 12, 0, 0, 0⟩ ∧
    parse_relative_time_string ("1mo 1d") ⟨2025, 5, 31, 12, 0, 0, 0⟩ ≠
      parse_relative_time_string ("1d 1mo") ⟨2025, 5, 31, 12, 0, 0, 0⟩ := by
  refine ⟨?_, by decide, by decide, by decide⟩
  have ht : tokensOf ("1d 1d") = [([ '1' ], TimeUnit.d), ([ '1' ], TimeUnit.d)] := by
    decide
  unfold parse_relative_time_string
  rw [ht, List.foldl_cons, List.foldl_cons, List.foldl_nil]
  show applyUnit (digitsToNat ([ '1' ])) TimeUnit.d
    (applyUnit (digitsToNat ([ '1' ])) TimeUnit.d T) = subDays 2 T
  have hd : digitsToNat ([ '1' ]) = 1 := by decide
  rw [hd]
  show subMinutes (1 * 1440) (subMinutes (1 * 1440) T) = subDays 2 T
  rw [subMinutes_mul1440 1 T h,
    subMinutes_mul1440 1 (subDays 1 T) (subDays_valid 1 T h)]
  show subDay1^[1] (subDay1^[1] T) = subDay1^[2] T
  rw [← Function.iterate_add_apply]

theorem tokens_applied_left_to_right_witness :
    parse_relative_time_string ("1d 1d") ⟨2025, 7, 4, 6, 30, 0, 0⟩ =
      subDays 2 ⟨2025, 7, 4, 6, 30, 0, 0⟩ ∧
    parse_relative_time_string ("1mo 1d") ⟨2025, 5, 31, 12, 0, 0, 0⟩ =
      ⟨2025, 4, 29, 12, 0, 0, 0⟩ ∧
    parse_relative_time_string ("1d 1mo") ⟨2025, 5, 31, 12, 0, 0, 0⟩ =
      ⟨2025, 4, 30, 12, 0, 0, 0⟩ ∧
    parse_relative_time_string ("1mo 1d") ⟨2025, 5, 31, 12, 0, 0, 0⟩ ≠
      parse_relative_time_string ("1d 1mo") ⟨2025, 5, 31, 12, 0, 0, 0⟩ :=
  tokens_applied_left_to_right ⟨2025, 7, 4, 6, 30, 0, 0⟩ (by decide)

/-- C8: the minimum-observed-id cell starts unset and after any delivered
sequence equals exactly the minimum of the ids seen (characterized as a
member that is a lower bound), independently of delivery order; in
particular the session [50, 48, 52] ends at 48. -/
theorem min_observed_id_invariant (l l2 : List Nat) (m : Nat)
    (hp : List.Perm l l2) :
    (runSession l = some m ↔ m ∈ l ∧ ∀ y ∈ l, m ≤ y) ∧
    runSession l = runSession l2 ∧
    runSession [] = none ∧
    runSession [50, 48, 52] = some 48 :=
  ⟨runSession_eq_some_iff l m, runSession_perm l l2 hp, rfl, by decide⟩

theorem min_observed_id_invariant_witness :
    ((runSession [50, 48, 52] = some 48 ↔
        48 ∈ [50, 48, 52] ∧ ∀ y ∈ [50, 48, 52], 48 ≤ y) ∧
      runSession [50, 48, 52] = runSession [48, 52, 50] ∧
      runSession [] = none ∧
      runSession [50, 48, 52] = some 48) :=
  min_observed_id_invariant [50, 48, 52] [48, 52, 50] 48 (by decide)

/-- C9 counterexample: with the --since option given as the empty string and
--verbose set, no summary is printed, refuting "printed if and only if both
options were given": Python truthiness makes the empty string falsy. -/
theorem summary_condition_cex :
    (some ("") : Option String) ≠ none ∧
    fetchSummary (some ("")) true ⟨2025, 3, 1, 9, 0, 0, 0⟩ [50, 48, 52] = none :=
  ⟨by simp, by decide⟩

/-- C9 (amended): the post-fetch summary is printed if and only if --since
was given with a non-empty string and --verbose was set; a missing --since,
an empty --since value, or a missing --verbose all suppress it. -/
theorem summary_printed_iff (since : Option String) (verbose : Bool)
    (now : DateTime) (ids : List Nat) :
    (fetchSummary since verbose now ids).isSome = true ↔
      ((∃ s, since = some s ∧ s ≠ "") ∧ verbose = true) := by
  unfold fetchSummary
  cases since with
  | none => simp [sinceTruthy]
  | some s =>
    by_cases hs : s = ""
    · subst hs
      simp [sinceTruthy]
    · cases verbose <;> simp [sinceTruthy, hs]

/-- C10: the parser can never produce an instant in the future of now: for
every input string and valid instant T, the result compares less-or-equal
to T in the field-lexicographic datetime order, because every matched
magnitude is non-negative and every unit is only ever subtracted. -/
theorem parse_never_future (s : String) (T : DateTime) (h : T.Valid) :
    DateTime.le (parse_relative_time_string s T) T := by
  unfold parse_relative_time_string
  exact foldl_applyToken_le (tokensOf s) T h

theorem parse_never_future_witness :
    DateTime.le (parse_relative_time_string ("3h 20m") ⟨2027, 8, 1, 0, 10, 0, 0⟩)
      ⟨2027, 8, 1, 0, 10, 0, 0⟩ :=
  parse_never_future ("3h 20m") ⟨2027, 8, 1, 0, 10, 0, 0⟩ (by decide)
